import Mathlib

/-!
# Verification of the Review record manager (`src/lib/review.py`)

A shallow embedding of the `Review` ORM class.  Python objects live on an
explicit heap (a list of `ReviewObj` indexed by natural-number references) so
that reference identity is observable; the class-level dictionary `Review.all`
is an association list from row ids to heap references; the SQLite `reviews`
table is a list of rows in insertion order.  The backend's `lastrowid`
generation is modelled by a fresh-id counter carried in the state, and
`CONN.commit()` is a no-op for the properties considered here (no transactions
are modelled).  Python exceptions raised by the validating setters are
modelled by returning the exception message alongside the state reached so
far, so that in-place mutations performed before a raise are preserved, as in
the source.

The Employee entity is an external collaborator (its implementation is not
part of the specified component); its lookup is an abstract existence
predicate `E : PyVal → Bool`.
-/

set_option autoImplicit false

namespace ReviewORM

/-- Python values that can reach the `Review` setters: integers, booleans
(which are *not* of exact type `int` for `type(v) is int`), strings, and
`None`. -/
inductive PyVal where
  | vint (n : Int)
  | vbool (b : Bool)
  | vstr (s : String)
  | vnone
  deriving DecidableEq, Repr

/-- An in-memory `Review` instance: the `id` attribute (`None` until first
persisted) and the three validated attributes `_year`, `_summary`,
`_employee_id`, stored as the raw Python values the setters accepted. -/
structure ReviewObj where
  id : Option Nat
  year : PyVal
  summary : PyVal
  employee_id : PyVal
  deriving DecidableEq, Repr

/-- A row of the `reviews` table: `(id, year, summary, employee_id)`. -/
structure Row where
  id : Nat
  year : PyVal
  summary : PyVal
  employee_id : PyVal
  deriving DecidableEq, Repr

/-- A heap reference: the index of an instance in the process heap. -/
abbrev Ref := Nat

/-- The whole observable state: the heap of live instances, the class-level
identity cache `Review.all` (row id → heap reference), the `reviews` table,
and the backend's next fresh row id. -/
structure State where
  heap : List ReviewObj
  cache : List (Nat × Ref)
  rows : List Row
  nextRowId : Nat
  deriving DecidableEq, Repr

/-! ## Python dictionary operations on the identity cache -/

/-- `d.get(k)` on a Python dict represented as an association list. -/
def dictGet (c : List (Nat × Ref)) (k : Nat) : Option Ref :=
  match c with
  | [] => none
  | p :: rest => if p.1 = k then some p.2 else dictGet rest k

/-- `d[k] = v` on a Python dict: replace the entry in place if the key is
present, otherwise append it. -/
def dictInsert (c : List (Nat × Ref)) (k : Nat) (v : Ref) : List (Nat × Ref) :=
  match c with
  | [] => [(k, v)]
  | p :: rest => if p.1 = k then (k, v) :: rest else p :: dictInsert rest k v

/-- `k in d` on a Python dict. -/
def dictHasKey (c : List (Nat × Ref)) (k : Nat) : Bool :=
  match c with
  | [] => false
  | p :: rest => p.1 = k || dictHasKey rest k

/-- `del d[k]` on a Python dict. -/
def dictRemove (c : List (Nat × Ref)) (k : Nat) : List (Nat × Ref) :=
  match c with
  | [] => []
  | p :: rest => if p.1 = k then dictRemove rest k else p :: dictRemove rest k

/-! ## The validating setters (property setters of `Review`) -/

/-- The `year` setter body: `type(value) is not int` raises
`Year must be an integer.` (so a `bool` is rejected), then `value < 2000`
raises `Year must be 2000 or later.`; otherwise the value is accepted. -/
def yearSetter (v : PyVal) : Except String PyVal :=
  match v with
  | .vint n =>
      if n < 2000 then .error "Year must be 2000 or later." else .ok (.vint n)
  | _ => .error "Year must be an integer."

/-- Python's `str.strip()`: remove leading and trailing whitespace. -/
def pyStrip (s : String) : String :=
  ⟨((s.data.dropWhile Char.isWhitespace).reverse.dropWhile
      Char.isWhitespace).reverse⟩

/-- The `summary` setter body: `not isinstance(value, str) or
len(value.strip()) == 0` raises `Summary must be a non-empty string.`. -/
def summarySetter (v : PyVal) : Except String PyVal :=
  match v with
  | .vstr s =>
      if (pyStrip s).length = 0 then .error "Summary must be a non-empty string."
      else .ok (.vstr s)
  | _ => .error "Summary must be a non-empty string."

/-- The `employee_id` setter body: `Employee.find_by_id(value)` must return a
record (`if not employee: raise`); the Employee lookup collaborator is the
abstract predicate `E`. -/
def employeeIdSetter (E : PyVal → Bool) (v : PyVal) : Except String PyVal :=
  if E v then .ok v else .error "Employee must exist."

/-- `Review.__init__(year, summary, employee_id, id=None)`: sets `self.id`
directly, then assigns the three attributes through their setters in order;
the first failing setter aborts construction with its exception. -/
def reviewInit (E : PyVal → Bool) (year summary employee_id : PyVal)
    (id : Option Nat) : Except String ReviewObj :=
  match yearSetter year with
  | .error msg => .error msg
  | .ok yv =>
    match summarySetter summary with
    | .error msg => .error msg
    | .ok sv =>
      match employeeIdSetter E employee_id with
      | .error msg => .error msg
      | .ok ev => .ok ⟨id, yv, sv, ev⟩

/-! ## Attribute assignment on a live instance

Assigning `obj.year = v` etc. mutates the heap object in place when the
setter accepts, and raises (returning the message, heap untouched) when it
rejects.  The state component of the result is the state after the
assignment statement, whether or not an exception was raised. -/

/-- `review.year = v` on the instance at reference `r`. -/
def assignYear (s : State) (r : Ref) (v : PyVal) : State × Option String :=
  match s.heap[r]? with
  | none => (s, none)
  | some obj =>
    match yearSetter v with
    | .error msg => (s, some msg)
    | .ok yv => ({ s with heap := s.heap.set r { obj with year := yv } }, none)

/-- `review.summary = v` on the instance at reference `r`. -/
def assignSummary (s : State) (r : Ref) (v : PyVal) : State × Option String :=
  match s.heap[r]? with
  | none => (s, none)
  | some obj =>
    match summarySetter v with
    | .error msg => (s, some msg)
    | .ok sv =>
        ({ s with heap := s.heap.set r { obj with summary := sv } }, none)

/-- `review.employee_id = v` on the instance at reference `r`. -/
def assignEmployeeId (E : PyVal → Bool) (s : State) (r : Ref) (v : PyVal) :
    State × Option String :=
  match s.heap[r]? with
  | none => (s, none)
  | some obj =>
    match employeeIdSetter E v with
    | .error msg => (s, some msg)
    | .ok ev =>
        ({ s with heap := s.heap.set r { obj with employee_id := ev } }, none)

/-! ## Persistence operations -/

/-- Truthiness of `self.id` in `if self.id:`: Python's `None` and `0` are
falsy. -/
def truthyId : Option Nat → Bool
  | none => false
  | some n => n ≠ 0

/-- `Review.update`: `UPDATE reviews SET year=?, summary=?, employee_id=?
WHERE id = ?` with the instance's current attributes; a `None` id is bound as
SQL `NULL`, which matches no row. -/
def update (s : State) (r : Ref) : State :=
  match s.heap[r]? with
  | none => s
  | some obj =>
    { s with rows := s.rows.map fun row =>
        if obj.id = some row.id then
          { row with year := obj.year, summary := obj.summary,
                     employee_id := obj.employee_id }
        else row }

/-- `Review.save`: if `self.id` is truthy, delegate to `update`; otherwise
`INSERT` a row with the current attributes, set `self.id` to the backend's
`lastrowid`, and register the instance in `Review.all` under that id. -/
def save (s : State) (r : Ref) : State :=
  match s.heap[r]? with
  | none => s
  | some obj =>
    if truthyId obj.id then update s r
    else
      let newId := s.nextRowId
      { s with
          rows := s.rows ++ [⟨newId, obj.year, obj.summary, obj.employee_id⟩],
          heap := s.heap.set r { obj with id := some newId },
          cache := dictInsert s.cache newId r,
          nextRowId := newId + 1 }

/-- `Review.create(year, summary, employee_id)`: construct a fresh instance
(running the validators), save it, and return its reference. -/
def create (E : PyVal → Bool) (s : State) (year summary employee_id : PyVal) :
    State × Except String Ref :=
  match reviewInit E year summary employee_id none with
  | .error msg => (s, .error msg)
  | .ok obj =>
    let r := s.heap.length
    let s1 := { s with heap := s.heap ++ [obj] }
    (save s1 r, .ok r)

/-- `Review.delete`: `DELETE FROM reviews WHERE id = ?` with the current id
(`None` binds SQL `NULL` and matches no row), then set `self.id = None` and
remove the original id from `Review.all` if it is a key. -/
def delete (s : State) (r : Ref) : State :=
  match s.heap[r]? with
  | none => s
  | some obj =>
    let rows' :=
      match obj.id with
      | some i => s.rows.filter fun row => row.id ≠ i
      | none => s.rows
    let cache' :=
      match obj.id with
      | some i => if dictHasKey s.cache i then dictRemove s.cache i else s.cache
      | none => s.cache
    { s with rows := rows',
             heap := s.heap.set r { obj with id := none },
             cache := cache' }

/-- `Review.instance_from_db(row)`: if `Review.all` holds an instance for the
row's id, re-assign its three attributes in place from the row (through the
validating setters, each of which may raise) and return it; otherwise
construct a fresh instance from the row, cache it under its id, and return
it. -/
def instance_from_db (E : PyVal → Bool) (s : State) (row : Row) :
    State × Except String Ref :=
  match dictGet s.cache row.id with
  | some r =>
    match assignYear s r row.year with
    | (s1, some msg) => (s1, .error msg)
    | (s1, none) =>
      match assignSummary s1 r row.summary with
      | (s2, some msg) => (s2, .error msg)
      | (s2, none) =>
        match assignEmployeeId E s2 r row.employee_id with
        | (s3, some msg) => (s3, .error msg)
        | (s3, none) => (s3, .ok r)
  | none =>
    match reviewInit E row.year row.summary row.employee_id (some row.id) with
    | .error msg => (s, .error msg)
    | .ok obj =>
      let r := s.heap.length
      ({ s with heap := s.heap ++ [obj],
                cache := dictInsert s.cache row.id r }, .ok r)

/-- `Review.find_by_id(id)`: `SELECT * FROM reviews WHERE id = ?` fetching
the first matching row; materialize it through `instance_from_db`, or return
`None` when no row matches. -/
def find_by_id (E : PyVal → Bool) (s : State) (pid : Nat) :
    State × Except String (Option Ref) :=
  match s.rows.find? (fun row => row.id = pid) with
  | none => (s, .ok none)
  | some row =>
    match instance_from_db E s row with
    | (s', .ok r) => (s', .ok (some r))
    | (s', .error msg) => (s', .error msg)

/-- `Review.get_all()`: scan the whole table in order, materializing each row
through `instance_from_db`; the first raising row aborts the scan. -/
def get_all_from (E : PyVal → Bool) (s : State) (rows : List Row) :
    State × Except String (List Ref) :=
  match rows with
  | [] => (s, .ok [])
  | row :: rest =>
    match instance_from_db E s row with
    | (s1, .error msg) => (s1, .error msg)
    | (s1, .ok r) =>
      match get_all_from E s1 rest with
      | (s2, .error msg) => (s2, .error msg)
      | (s2, .ok rs) => (s2, .ok (r :: rs))

/-- `Review.get_all()` proper: the scan starts from the current table. -/
def get_all (E : PyVal → Bool) (s : State) : State × Except String (List Ref) :=
  get_all_from E s s.rows

/-- Observation used to state the update round-trip: the year and summary
carried by the instance `find_by_id` returns when it succeeds with a hit. -/
def fetchYearSummary (E : PyVal → Bool) (s : State) (i : Nat) :
    Option (PyVal × PyVal) :=
  match find_by_id E s i with
  | (s', .ok (some r)) => s'.heap[r]?.map fun o => (o.year, o.summary)
  | _ => none

/-- Identity-cache key agreement: every cache entry `(k, ref)` points at a
live instance whose `id` attribute equals the key `k`. -/
def CacheOK (s : State) : Prop :=
  ∀ p ∈ s.cache, s.heap[p.2]?.map ReviewObj.id = some (some p.1)

/-- The inductive state invariant: key agreement together with the backend
guarantees that make it preserved — cache keys, row ids and the fresh-id
counter are all positive (SQLite row ids start at 1). -/
def Inv (s : State) : Prop :=
  CacheOK s ∧ (∀ p ∈ s.cache, 1 ≤ p.1) ∧ (∀ row ∈ s.rows, 1 ≤ row.id) ∧
    1 ≤ s.nextRowId

end ReviewORM

namespace ReviewORM

/-! ## Helper lemmas on the dictionary operations -/

theorem dictGet_dictInsert (c : List (Nat × Ref)) (k : Nat) (v : Ref) :
    dictGet (dictInsert c k v) k = some v := by
  induction c with
  | nil => simp [dictInsert, dictGet]
  | cons p rest ih =>
    by_cases h : p.1 = k
    · simp [dictInsert, dictGet, h]
    · simp [dictInsert, dictGet, h, ih]

theorem mem_dictRemove_ne (c : List (Nat × Ref)) (k : Nat) :
    ∀ p ∈ dictRemove c k, p.1 ≠ k := by
  induction c with
  | nil => simp [dictRemove]
  | cons q rest ih =>
    by_cases h : q.1 = k
    · simpa [dictRemove, h] using ih
    · intro p hp
      rw [dictRemove] at hp
      simp only [h, if_false, List.mem_cons] at hp
      rcases hp with rfl | hp
      · exact h
      · exact ih p hp

theorem dictHasKey_false_not_mem (c : List (Nat × Ref)) (k : Nat)
    (h : dictHasKey c k = false) : ∀ p ∈ c, p.1 ≠ k := by
  induction c with
  | nil => simp
  | cons q rest ih =>
    rw [dictHasKey, Bool.or_eq_false_iff] at h
    intro p hp
    rcases List.mem_cons.mp hp with rfl | hp
    · simpa using h.1
    · exact ih h.2 p hp

theorem dictGet_mem (c : List (Nat × Ref)) (k : Nat) (v : Ref)
    (h : dictGet c k = some v) : (k, v) ∈ c := by
  induction c with
  | nil => simp [dictGet] at h
  | cons p rest ih =>
    rw [dictGet] at h
    by_cases hk : p.1 = k
    · rw [if_pos hk] at h
      have hv : p.2 = v := by injection h
      obtain ⟨p1, p2⟩ := p
      dsimp only at hk hv
      subst hk
      subst hv
      exact List.mem_cons_self _ _
    · rw [if_neg hk] at h
      exact List.mem_cons_of_mem _ (ih h)

theorem mem_dictInsert (c : List (Nat × Ref)) (k : Nat) (v : Ref) :
    ∀ p ∈ dictInsert c k v, p = (k, v) ∨ p ∈ c := by
  induction c with
  | nil => simp [dictInsert]
  | cons q rest ih =>
    intro p hp
    rw [dictInsert] at hp
    by_cases hk : q.1 = k
    · rw [if_pos hk] at hp
      rcases List.mem_cons.mp hp with rfl | hp
      · exact Or.inl rfl
      · exact Or.inr (List.mem_cons_of_mem _ hp)
    · rw [if_neg hk] at hp
      rcases List.mem_cons.mp hp with rfl | hp
      · exact Or.inr (List.mem_cons_self _ _)
      · rcases ih p hp with h | h
        · exact Or.inl h
        · exact Or.inr (List.mem_cons_of_mem _ h)

/-! ## Frame lemmas for in-place attribute assignment -/

theorem assignYear_frame (s : State) (r : Ref) (v : PyVal) :
    (assignYear s r v).1.cache = s.cache ∧ (assignYear s r v).1.rows = s.rows ∧
    (assignYear s r v).1.nextRowId = s.nextRowId ∧
    (assignYear s r v).1.heap.length = s.heap.length ∧
    (∀ k : Nat, (assignYear s r v).1.heap[k]?.map ReviewObj.id =
      s.heap[k]?.map ReviewObj.id) := by
  unfold assignYear
  cases h : s.heap[r]? with
  | none => simp
  | some obj =>
    cases hy : yearSetter v with
    | error msg => simp
    | ok yv =>
      refine ⟨rfl, rfl, rfl, by simp, fun k => ?_⟩
      by_cases hk : k = r
      · subst hk
        have hlt : k < s.heap.length := (List.getElem?_eq_some.mp h).1
        simp [List.getElem?_set_self, hlt, h]
      · simp [List.getElem?_set_ne (fun he => hk he.symm)]

theorem assignSummary_frame (s : State) (r : Ref) (v : PyVal) :
    (assignSummary s r v).1.cache = s.cache ∧
    (assignSummary s r v).1.rows = s.rows ∧
    (assignSummary s r v).1.nextRowId = s.nextRowId ∧
    (assignSummary s r v).1.heap.length = s.heap.length ∧
    (∀ k : Nat, (assignSummary s r v).1.heap[k]?.map ReviewObj.id =
      s.heap[k]?.map ReviewObj.id) := by
  unfold assignSummary
  cases h : s.heap[r]? with
  | none => simp
  | some obj =>
    cases hy : summarySetter v with
    | error msg => simp
    | ok sv =>
      refine ⟨rfl, rfl, rfl, by simp, fun k => ?_⟩
      by_cases hk : k = r
      · subst hk
        have hlt : k < s.heap.length := (List.getElem?_eq_some.mp h).1
        simp [List.getElem?_set_self, hlt, h]
      · simp [List.getElem?_set_ne (fun he => hk he.symm)]

theorem assignEmployeeId_frame (E : PyVal → Bool) (s : State) (r : Ref)
    (v : PyVal) :
    (assignEmployeeId E s r v).1.cache = s.cache ∧
    (assignEmployeeId E s r v).1.rows = s.rows ∧
    (assignEmployeeId E s r v).1.nextRowId = s.nextRowId ∧
    (assignEmployeeId E s r v).1.heap.length = s.heap.length ∧
    (∀ k : Nat, (assignEmployeeId E s r v).1.heap[k]?.map ReviewObj.id =
      s.heap[k]?.map ReviewObj.id) := by
  unfold assignEmployeeId
  cases h : s.heap[r]? with
  | none => simp
  | some obj =>
    cases hy : employeeIdSetter E v with
    | error msg => simp
    | ok ev =>
      refine ⟨rfl, rfl, rfl, by simp, fun k => ?_⟩
      by_cases hk : k = r
      · subst hk
        have hlt : k < s.heap.length := (List.getElem?_eq_some.mp h).1
        simp [List.getElem?_set_self, hlt, h]
      · simp [List.getElem?_set_ne (fun he => hk he.symm)]

/-- A successful materialization leaves the table untouched and leaves the
cache holding the returned reference under the row's id. -/
theorem instance_from_db_ok_facts (E : PyVal → Bool) (s : State) (row : Row)
    (s' : State) (r : Ref) (h : instance_from_db E s row = (s', .ok r)) :
    s'.rows = s.rows ∧ dictGet s'.cache row.id = some r := by
  unfold instance_from_db at h
  cases hc : dictGet s.cache row.id with
  | some r0 =>
    rw [hc] at h
    dsimp only at h
    cases hA : assignYear s r0 row.year with
    | mk sa ea =>
      rw [hA] at h
      cases ea with
      | some msg => simp at h
      | none =>
        dsimp only at h
        cases hB : assignSummary sa r0 row.summary with
        | mk sb eb =>
          rw [hB] at h
          cases eb with
          | some msg => simp at h
          | none =>
            dsimp only at h
            cases hC : assignEmployeeId E sb r0 row.employee_id with
            | mk sc ec =>
              rw [hC] at h
              cases ec with
              | some msg => simp at h
              | none =>
                dsimp only at h
                simp only [Prod.mk.injEq, Except.ok.injEq] at h
                obtain ⟨rfl, rfl⟩ := h
                have ha := assignYear_frame s r0 row.year
                have hb := assignSummary_frame sa r0 row.summary
                have hcc := assignEmployeeId_frame E sb r0 row.employee_id
                rw [hA] at ha
                rw [hB] at hb
                rw [hC] at hcc
                refine ⟨by rw [hcc.2.1, hb.2.1, ha.2.1], ?_⟩
                rw [hcc.1, hb.1, ha.1, hc]
  | none =>
    rw [hc] at h
    dsimp only at h
    cases hI : reviewInit E row.year row.summary row.employee_id (some row.id) with
    | error msg => rw [hI] at h; simp at h
    | ok obj =>
      rw [hI] at h
      dsimp only at h
      simp only [Prod.mk.injEq, Except.ok.injEq] at h
      obtain ⟨rfl, rfl⟩ := h
      exact ⟨rfl, dictGet_dictInsert ..⟩

/-- A materialization that finds the row's id in the cache returns exactly
the cached reference whenever it succeeds. -/
theorem instance_from_db_cached_ref (E : PyVal → Bool) (s : State) (row : Row)
    (r : Ref) (hc : dictGet s.cache row.id = some r) (s' : State) (r' : Ref)
    (h : instance_from_db E s row = (s', .ok r')) : r' = r := by
  unfold instance_from_db at h
  rw [hc] at h
  dsimp only at h
  cases hA : assignYear s r row.year with
  | mk sa ea =>
    rw [hA] at h
    cases ea with
    | some msg => simp at h
    | none =>
      dsimp only at h
      cases hB : assignSummary sa r row.summary with
      | mk sb eb =>
        rw [hB] at h
        cases eb with
        | some msg => simp at h
        | none =>
          dsimp only at h
          cases hC : assignEmployeeId E sb r row.employee_id with
          | mk sc ec =>
            rw [hC] at h
            cases ec with
            | some msg => simp at h
            | none =>
              dsimp only at h
              simp only [Prod.mk.injEq, Except.ok.injEq] at h
              exact h.2.symm

/-! ## Claims about the setters -/

/-- C4: assigning `year = v` succeeds with the attribute equal to `v` exactly
when `v` is an integer (of exact type `int`) that is at least 2000, and
raises a validation error otherwise; on failure the attribute (and the whole
state) is unchanged. -/
theorem year_assignment_valid_iff (s : State) (r : Ref) (obj : ReviewObj)
    (v : PyVal) (hr : s.heap[r]? = some obj) :
    ((∃ n : Int, v = .vint n ∧ 2000 ≤ n) →
      assignYear s r v =
        ({ s with heap := s.heap.set r { obj with year := v } }, none) ∧
      ((assignYear s r v).1.heap[r]?.map ReviewObj.year) = some v) ∧
    ((¬ ∃ n : Int, v = .vint n ∧ 2000 ≤ n) →
      ∃ msg, assignYear s r v = (s, some msg)) := by
  constructor
  · rintro ⟨n, rfl, hn⟩
    have hset : yearSetter (.vint n) = .ok (.vint n) := by
      simp [yearSetter, not_lt.mpr hn]
    constructor
    · simp [assignYear, hr, hset]
    · have hlt : r < s.heap.length := by
        have := List.getElem?_eq_some.mp hr
        exact this.1
      simp [assignYear, hr, hset, List.getElem?_set_self, hlt]
  · intro hno
    match v with
    | .vint n =>
        have hn : n < 2000 := by
          by_contra hge
          exact hno ⟨n, rfl, not_lt.mp hge⟩
        exact ⟨"Year must be 2000 or later.", by simp [assignYear, hr, yearSetter, hn]⟩
    | .vbool b =>
        exact ⟨"Year must be an integer.", by simp [assignYear, hr, yearSetter]⟩
    | .vstr str =>
        exact ⟨"Year must be an integer.", by simp [assignYear, hr, yearSetter]⟩
    | .vnone =>
        exact ⟨"Year must be an integer.", by simp [assignYear, hr, yearSetter]⟩

/-- Witness for C4: on a one-object heap, assigning year 2023 succeeds and
assigning year 1999 fails with the state unchanged. -/
theorem year_assignment_valid_iff_witness :
    (assignYear ⟨[⟨none, .vint 2020, .vstr "ok", .vint 1⟩], [], [], 1⟩ 0
        (.vint 2023)).1.heap[0]?.map ReviewObj.year = some (.vint 2023) ∧
    ∃ msg, assignYear ⟨[⟨none, .vint 2020, .vstr "ok", .vint 1⟩], [], [], 1⟩ 0
        (.vint 1999) = (⟨[⟨none, .vint 2020, .vstr "ok", .vint 1⟩], [], [], 1⟩, some msg) := by
  refine ⟨?_, ?_⟩
  · exact ((year_assignment_valid_iff
      ⟨[⟨none, .vint 2020, .vstr "ok", .vint 1⟩], [], [], 1⟩ 0
      ⟨none, .vint 2020, .vstr "ok", .vint 1⟩ (.vint 2023) rfl).1
      ⟨2023, rfl, by norm_num⟩).2
  · exact (year_assignment_valid_iff
      ⟨[⟨none, .vint 2020, .vstr "ok", .vint 1⟩], [], [], 1⟩ 0
      ⟨none, .vint 2020, .vstr "ok", .vint 1⟩ (.vint 1999) rfl).2
      (by rintro ⟨n, hn, hge⟩; cases hn; omega)

/-- C5: assigning `employee_id = v` succeeds (storing `v`) exactly when the
Employee lookup collaborator `E` reports a record for `v`, and raises a
validation error exactly when it reports absence; on failure the attribute
(and the whole state) is unchanged. -/
theorem employee_id_assignment_iff (E : PyVal → Bool) (s : State) (r : Ref)
    (obj : ReviewObj) (v : PyVal) (hr : s.heap[r]? = some obj) :
    (E v = true →
      assignEmployeeId E s r v =
        ({ s with heap := s.heap.set r { obj with employee_id := v } }, none) ∧
      ((assignEmployeeId E s r v).1.heap[r]?.map ReviewObj.employee_id) = some v) ∧
    (E v = false →
      assignEmployeeId E s r v = (s, some "Employee must exist.")) := by
  constructor
  · intro hE
    have hlt : r < s.heap.length := (List.getElem?_eq_some.mp hr).1
    constructor
    · simp [assignEmployeeId, hr, employeeIdSetter, hE]
    · simp [assignEmployeeId, hr, employeeIdSetter, hE,
        List.getElem?_set_self, hlt]
  · intro hE
    simp [assignEmployeeId, hr, employeeIdSetter, hE]

/-- Witness for C5: with the lookup accepting exactly employee id 7,
assignment of 7 succeeds and assignment of 8 fails leaving the state
unchanged. -/
theorem employee_id_assignment_iff_witness :
    ((assignEmployeeId (fun v => v = .vint 7)
        ⟨[⟨none, .vint 2020, .vstr "ok", .vint 7⟩], [], [], 1⟩ 0
        (.vint 7)).1.heap[0]?.map ReviewObj.employee_id = some (.vint 7)) ∧
    (assignEmployeeId (fun v => v = .vint 7)
        ⟨[⟨none, .vint 2020, .vstr "ok", .vint 7⟩], [], [], 1⟩ 0 (.vint 8) =
      (⟨[⟨none, .vint 2020, .vstr "ok", .vint 7⟩], [], [], 1⟩,
        some "Employee must exist.")) := by
  refine ⟨?_, ?_⟩
  · exact ((employee_id_assignment_iff (fun v => v = .vint 7)
      ⟨[⟨none, .vint 2020, .vstr "ok", .vint 7⟩], [], [], 1⟩ 0
      ⟨none, .vint 2020, .vstr "ok", .vint 7⟩ (.vint 7) rfl).1 (by decide)).2
  · exact (employee_id_assignment_iff (fun v => v = .vint 7)
      ⟨[⟨none, .vint 2020, .vstr "ok", .vint 7⟩], [], [], 1⟩ 0
      ⟨none, .vint 2020, .vstr "ok", .vint 7⟩ (.vint 8) rfl).2 (by decide)

/-- C10: assigning a boolean to `year` raises the integer-type validation
error, for both `True` and `False`, because the setter checks the exact type
with `type(value) is int` and `bool` is not `int`; the same happens at
construction. -/
theorem year_rejects_bool :
    ∀ b : Bool, yearSetter (.vbool b) = .error "Year must be an integer." ∧
      ∀ (E : PyVal → Bool) (sm e : PyVal) (id : Option Nat),
        reviewInit E (.vbool b) sm e id = .error "Year must be an integer." := by
  intro b
  exact ⟨rfl, fun E sm e id => rfl⟩

/-! ## Claims about save / update / delete -/

/-- C2 counterexample: an instance whose `id` attribute is set (to `0`) for
which `save` does *not* delegate to `update`: `if self.id:` treats `0` as
falsy, so `save` issues an insert (the table grows by one row) and overwrites
the instance's id with the backend-generated one. -/
theorem save_id_zero_inserts_cex :
    (State.mk [⟨some 0, .vint 2023, .vstr "ok", .vint 1⟩] [(0, 0)] [] 1).heap[0]?.map
        ReviewObj.id = some (some 0) ∧
    (save ⟨[⟨some 0, .vint 2023, .vstr "ok", .vint 1⟩], [(0, 0)], [], 1⟩ 0).rows.length =
      (State.mk [⟨some 0, .vint 2023, .vstr "ok", .vint 1⟩] [(0, 0)] [] 1).rows.length + 1 ∧
    save ⟨[⟨some 0, .vint 2023, .vstr "ok", .vint 1⟩], [(0, 0)], [], 1⟩ 0 ≠
      update ⟨[⟨some 0, .vint 2023, .vstr "ok", .vint 1⟩], [(0, 0)], [], 1⟩ 0 := by
  refine ⟨rfl, rfl, ?_⟩
  decide

/-- C2 (amended): `save` delegates to `update` (issuing no insert) when the
instance's id is set to a nonzero value; when the id is unset — or set to the
falsy value `0` — it inserts a new row carrying the instance's current year,
summary and employee_id, stores the backend-generated id on the instance, and
registers the instance in the identity cache under that id. -/
theorem save_dispatch_spec (s : State) (r : Ref) (obj : ReviewObj)
    (hr : s.heap[r]? = some obj) :
    (∀ i : Nat, obj.id = some i → i ≠ 0 → save s r = update s r) ∧
    (obj.id = none ∨ obj.id = some 0 →
      save s r =
        { s with
            rows := s.rows ++ [⟨s.nextRowId, obj.year, obj.summary, obj.employee_id⟩],
            heap := s.heap.set r { obj with id := some s.nextRowId },
            cache := dictInsert s.cache s.nextRowId r,
            nextRowId := s.nextRowId + 1 } ∧
      dictGet (save s r).cache s.nextRowId = some r ∧
      (save s r).heap[r]?.map ReviewObj.id = some (some s.nextRowId)) := by
  have hlt : r < s.heap.length := (List.getElem?_eq_some.mp hr).1
  constructor
  · intro i hid hne
    simp [save, hr, truthyId, hid, hne]
  · intro hid
    have hfalse : truthyId obj.id = false := by
      rcases hid with h | h <;> simp [truthyId, h]
    refine ⟨?_, ?_, ?_⟩
    · simp [save, hr, hfalse]
    · simp [save, hr, hfalse, dictGet_dictInsert]
    · simp [save, hr, hfalse, List.getElem?_set_self, hlt]

/-- Witness for C2 (amended): on a concrete state, `save` of an instance with
id 5 equals `update`, and `save` of an unsaved instance registers it in the
cache under the generated id 1. -/
theorem save_dispatch_spec_witness :
    save ⟨[⟨some 5, .vint 2023, .vstr "ok", .vint 1⟩], [], [], 6⟩ 0 =
      update ⟨[⟨some 5, .vint 2023, .vstr "ok", .vint 1⟩], [], [], 6⟩ 0 ∧
    dictGet (save ⟨[⟨none, .vint 2023, .vstr "ok", .vint 1⟩], [], [], 1⟩ 0).cache 1 =
      some 0 :=
  ⟨(save_dispatch_spec ⟨[⟨some 5, .vint 2023, .vstr "ok", .vint 1⟩], [], [], 6⟩ 0
      ⟨some 5, .vint 2023, .vstr "ok", .vint 1⟩ rfl).1 5 rfl (by decide),
   ((save_dispatch_spec ⟨[⟨none, .vint 2023, .vstr "ok", .vint 1⟩], [], [], 1⟩ 0
      ⟨none, .vint 2023, .vstr "ok", .vint 1⟩ rfl).2 (Or.inl rfl)).2.1⟩

/-- C3: deleting a saved instance (id set) removes its row — a subsequent
`find_by_id` on the original id returns the absent marker without changing
state — unsets the instance's id, and leaves no identity-cache entry under
the original id. -/
theorem delete_clears_row_id_cache (E : PyVal → Bool) (s : State) (r : Ref)
    (obj : ReviewObj) (i : Nat) (hr : s.heap[r]? = some obj)
    (hid : obj.id = some i) :
    find_by_id E (delete s r) i = (delete s r, .ok none) ∧
    (delete s r).heap[r]?.map ReviewObj.id = some none ∧
    ∀ p ∈ (delete s r).cache, p.1 ≠ i := by
  have hlt : r < s.heap.length := (List.getElem?_eq_some.mp hr).1
  have hrows : (delete s r).rows = s.rows.filter fun row => row.id ≠ i := by
    simp [delete, hr, hid]
  refine ⟨?_, ?_, ?_⟩
  · have hfind : (delete s r).rows.find? (fun row => row.id = i) = none := by
      rw [hrows]
      apply List.find?_eq_none.mpr
      intro row hrow
      have := (List.mem_filter.mp hrow).2
      simpa using this
    simp [find_by_id, hfind]
  · simp [delete, hr, hid, List.getElem?_set_self, hlt]
  · have hcache : (delete s r).cache =
        if dictHasKey s.cache i then dictRemove s.cache i else s.cache := by
      simp [delete, hr, hid]
    rw [hcache]
    by_cases h : dictHasKey s.cache i
    · simpa [h] using mem_dictRemove_ne s.cache i
    · have h' : dictHasKey s.cache i = false := by simpa using h
      simpa [h'] using dictHasKey_false_not_mem s.cache i h'

/-- Witness for C3: deleting the cached instance for row 1 on a concrete
one-row state makes `find_by_id 1` return absent and unsets the id. -/
theorem delete_clears_row_id_cache_witness :
    find_by_id (fun _ => true)
        (delete ⟨[⟨some 1, .vint 2023, .vstr "ok", .vint 1⟩], [(1, 0)],
          [⟨1, .vint 2023, .vstr "ok", .vint 1⟩], 2⟩ 0) 1 =
      (delete ⟨[⟨some 1, .vint 2023, .vstr "ok", .vint 1⟩], [(1, 0)],
          [⟨1, .vint 2023, .vstr "ok", .vint 1⟩], 2⟩ 0, .ok none) ∧
    (delete ⟨[⟨some 1, .vint 2023, .vstr "ok", .vint 1⟩], [(1, 0)],
        [⟨1, .vint 2023, .vstr "ok", .vint 1⟩], 2⟩ 0).heap[0]?.map ReviewObj.id =
      some none :=
  ⟨(delete_clears_row_id_cache (fun _ => true)
      ⟨[⟨some 1, .vint 2023, .vstr "ok", .vint 1⟩], [(1, 0)],
        [⟨1, .vint 2023, .vstr "ok", .vint 1⟩], 2⟩ 0
      ⟨some 1, .vint 2023, .vstr "ok", .vint 1⟩ 1 rfl rfl).1,
   (delete_clears_row_id_cache (fun _ => true)
      ⟨[⟨some 1, .vint 2023, .vstr "ok", .vint 1⟩], [(1, 0)],
        [⟨1, .vint 2023, .vstr "ok", .vint 1⟩], 2⟩ 0
      ⟨some 1, .vint 2023, .vstr "ok", .vint 1⟩ 1 rfl rfl).2.1⟩

/-- C9: frame property of `update` and `delete`: rows whose id differs from
the instance's id are left exactly as they were (same rows, same order). -/
theorem update_delete_frame (s : State) (r : Ref) (obj : ReviewObj) (i : Nat)
    (hr : s.heap[r]? = some obj) (hid : obj.id = some i) :
    ((update s r).rows.filter fun row => row.id ≠ i) =
      (s.rows.filter fun row => row.id ≠ i) ∧
    ((delete s r).rows.filter fun row => row.id ≠ i) =
      (s.rows.filter fun row => row.id ≠ i) := by
  constructor
  · simp only [update, hr, hid]
    induction s.rows with
    | nil => rfl
    | cons row rest ih =>
      by_cases h : row.id = i
      · simpa [List.filter_cons, h] using ih
      · have h' : ¬ (i = row.id) := fun he => h he.symm
        simpa [List.filter_cons, h, h'] using ih
  · simp only [delete, hr, hid]
    induction s.rows with
    | nil => rfl
    | cons row rest ih =>
      by_cases h : row.id = i
      · simp [List.filter_cons, h, ih]
      · simp [List.filter_cons, h, ih]

/-! ## Helper lemmas for materialization -/

theorem set_concat_self {α : Type} (l : List α) (a b : α) :
    (l ++ [a]).set l.length b = l ++ [b] := by
  induction l with
  | nil => rfl
  | cons x xs ih => simp [List.set, ih]

theorem set_getElem?_self {α : Type} (l : List α) (n : Nat) (a : α)
    (h : l[n]? = some a) : l.set n a = l := by
  induction l generalizing n with
  | nil => simp [List.set]
  | cons x xs ih =>
    cases n with
    | zero =>
      simp only [List.getElem?_cons_zero, Option.some.injEq] at h
      simp [List.set, h]
    | succ m =>
      simp only [List.getElem?_cons_succ] at h
      simp [List.set, ih m h]

theorem find?_append_fresh (rows : List Row) (row0 : Row)
    (h : ∀ row ∈ rows, row.id ≠ row0.id) :
    (rows ++ [row0]).find? (fun row => row.id = row0.id) = some row0 := by
  induction rows with
  | nil => simp [List.find?]
  | cons r rest ih =>
    have hr : r.id ≠ row0.id := h r (List.mem_cons_self _ _)
    rw [List.cons_append, List.find?_cons]
    simp only [hr, decide_False]
    exact ih fun row hrow => h row (List.mem_cons_of_mem _ hrow)

/-- Materializing a row whose id hits the cache re-assigns the cached
instance's three attributes in place from the row and returns the cached
reference, provided all three setters accept. -/
theorem instance_from_db_cached_ok (E : PyVal → Bool) (s : State) (row : Row)
    (r : Ref) (obj : ReviewObj)
    (hc : dictGet s.cache row.id = some r) (hr : s.heap[r]? = some obj)
    (hy : yearSetter row.year = .ok row.year)
    (hs : summarySetter row.summary = .ok row.summary)
    (he : E row.employee_id = true) :
    instance_from_db E s row =
      ({ s with heap :=
          (s.heap.set r ⟨obj.id, row.year, row.summary, row.employee_id⟩) },
        .ok r) := by
  have hlt : r < s.heap.length := (List.getElem?_eq_some.mp hr).1
  have h1 : assignYear s r row.year =
      ({ s with heap :=
          (s.heap.set r ⟨obj.id, row.year, obj.summary, obj.employee_id⟩) },
        none) := by
    simp [assignYear, hr, hy]
  have h2 : assignSummary
      { s with heap :=
        (s.heap.set r ⟨obj.id, row.year, obj.summary, obj.employee_id⟩) } r
      row.summary =
      ({ s with heap :=
          (s.heap.set r ⟨obj.id, row.year, row.summary, obj.employee_id⟩) },
        none) := by
    simp [assignSummary, List.getElem?_set_self, hlt, hs, List.set_set]
  have h3 : assignEmployeeId E
      { s with heap :=
        (s.heap.set r ⟨obj.id, row.year, row.summary, obj.employee_id⟩) } r
      row.employee_id =
      ({ s with heap :=
          (s.heap.set r ⟨obj.id, row.year, row.summary, row.employee_id⟩) },
        none) := by
    simp [assignEmployeeId, List.getElem?_set_self, hlt, employeeIdSetter, he,
      List.set_set]
  unfold instance_from_db
  rw [hc]
  dsimp only
  rw [h1]
  dsimp only
  rw [h2]
  dsimp only
  rw [h3]

/-- Materializing a row whose id misses the cache constructs a fresh
instance from the row, appends it to the heap, and caches it under the
row's id, provided all three setters accept. -/
theorem instance_from_db_fresh_ok (E : PyVal → Bool) (s : State) (row : Row)
    (hc : dictGet s.cache row.id = none)
    (hy : yearSetter row.year = .ok row.year)
    (hs : summarySetter row.summary = .ok row.summary)
    (he : E row.employee_id = true) :
    instance_from_db E s row =
      ({ s with
          heap := s.heap ++
            [⟨some row.id, row.year, row.summary, row.employee_id⟩],
          cache := dictInsert s.cache row.id s.heap.length },
        .ok s.heap.length) := by
  have hinit : reviewInit E row.year row.summary row.employee_id (some row.id) =
      .ok ⟨some row.id, row.year, row.summary, row.employee_id⟩ := by
    simp [reviewInit, hy, hs, employeeIdSetter, he]
  unfold instance_from_db
  rw [hc]
  dsimp only
  rw [hinit]

/-! ## Round-trip: create then find_by_id -/

/-- C1: for valid year, summary and employee id (confirmed by the Employee
lookup), `create` persists a new row under the backend-generated id, and
`find_by_id` on that id returns the very instance whose year, summary and
employee_id equal the values passed to `create`. -/
theorem create_find_by_id_roundtrip (E : PyVal → Bool) (s : State)
    (yv sv ev : PyVal)
    (hy : yearSetter yv = .ok yv) (hs : summarySetter sv = .ok sv)
    (he : E ev = true)
    (hfresh : ∀ row ∈ s.rows, row.id ≠ s.nextRowId) :
    create E s yv sv ev =
      (⟨s.heap ++ [⟨some s.nextRowId, yv, sv, ev⟩],
        dictInsert s.cache s.nextRowId s.heap.length,
        s.rows ++ [⟨s.nextRowId, yv, sv, ev⟩], s.nextRowId + 1⟩,
        .ok s.heap.length) ∧
    find_by_id E (create E s yv sv ev).1 s.nextRowId =
      ((create E s yv sv ev).1, .ok (some s.heap.length)) ∧
    (create E s yv sv ev).1.heap[s.heap.length]?.map
        (fun o => (o.id, o.year, o.summary, o.employee_id)) =
      some (some s.nextRowId, yv, sv, ev) := by
  have hinit : reviewInit E yv sv ev none = .ok ⟨none, yv, sv, ev⟩ := by
    simp [reviewInit, hy, hs, employeeIdSetter, he]
  have hcreate : create E s yv sv ev =
      (⟨s.heap ++ [⟨some s.nextRowId, yv, sv, ev⟩],
        dictInsert s.cache s.nextRowId s.heap.length,
        s.rows ++ [⟨s.nextRowId, yv, sv, ev⟩], s.nextRowId + 1⟩,
        .ok s.heap.length) := by
    unfold create
    rw [hinit]
    dsimp only
    unfold save
    rw [List.getElem?_concat_length]
    simp only [truthyId, Bool.false_eq_true, if_false, set_concat_self]
  refine ⟨hcreate, ?_, ?_⟩
  · rw [hcreate]
    dsimp only
    unfold find_by_id
    rw [find?_append_fresh s.rows ⟨s.nextRowId, yv, sv, ev⟩ hfresh]
    dsimp only
    rw [instance_from_db_cached_ok E _ _ s.heap.length
      ⟨some s.nextRowId, yv, sv, ev⟩ (dictGet_dictInsert ..)
      (List.getElem?_concat_length ..) hy hs he]
    rw [set_concat_self]
  · rw [hcreate]
    dsimp only
    rw [List.getElem?_concat_length]
    rfl

/-- Witness for C1: creating `(2023, "Good work", employee 1)` on the empty
state and looking the id up again returns the instance with those values. -/
theorem create_find_by_id_roundtrip_witness :
    yearSetter (.vint 2023) = .ok (.vint 2023) ∧
    summarySetter (.vstr "Good work") = .ok (.vstr "Good work") ∧
    (fun (_ : PyVal) => true) (PyVal.vint 1) = true ∧
    (create (fun _ => true) ⟨[], [], [], 1⟩ (.vint 2023)
        (.vstr "Good work") (.vint 1)).1.heap[(0 : Nat)]?.map
        (fun o => (o.id, o.year, o.summary, o.employee_id)) =
      some (some 1, .vint 2023, .vstr "Good work", .vint 1) :=
  ⟨rfl, rfl, rfl,
   (create_find_by_id_roundtrip (fun _ => true) ⟨[], [], [], 1⟩
     (.vint 2023) (.vstr "Good work") (.vint 1) rfl rfl rfl
     (by simp)).2.2⟩

/-! ## Update round-trip -/

theorem find?_map_id_pres (rows : List Row) (i : Nat) (f : Row → Row)
    (hf : ∀ row, (f row).id = row.id) :
    (rows.map f).find? (fun row => row.id = i) =
      (rows.find? (fun row => row.id = i)).map f := by
  induction rows with
  | nil => rfl
  | cons r rest ih =>
    rw [List.map_cons, List.find?_cons, List.find?_cons]
    by_cases h : r.id = i
    · simp [hf, h]
    · simp only [hf r, h, decide_False]
      exact ih

/-- C7: after a saved instance's year and summary were mutated to valid
values, `update` persists them: re-fetching through `find_by_id` on the same
id yields an instance carrying the new year and summary. -/
theorem update_then_find_by_id (E : PyVal → Bool) (s : State) (r : Ref)
    (obj : ReviewObj) (i : Nat)
    (hr : s.heap[r]? = some obj) (hid : obj.id = some i)
    (hy : yearSetter obj.year = .ok obj.year)
    (hs : summarySetter obj.summary = .ok obj.summary)
    (he : E obj.employee_id = true)
    (hrow : ∃ row0 ∈ s.rows, row0.id = i)
    (hcache : ∀ p ∈ s.cache, p.2 < s.heap.length) :
    fetchYearSummary E (update s r) i = some (obj.year, obj.summary) := by
  obtain ⟨row1, hrow1mem, hrow1id⟩ := hrow
  have hfindS : (s.rows.find? (fun row => row.id = i)).isSome := by
    rw [List.find?_isSome]
    exact ⟨row1, hrow1mem, by simp [hrow1id]⟩
  obtain ⟨row2, hf⟩ := Option.isSome_iff_exists.mp hfindS
  have hrow2id : row2.id = i := by
    have := List.find?_some hf
    simpa using this
  have hupd : update s r = { s with rows := s.rows.map (fun row =>
      if obj.id = some row.id then
        (⟨row.id, obj.year, obj.summary, obj.employee_id⟩ : Row)
      else row) } := by
    simp [update, hr]
  have hfindU : ((update s r).rows.find? (fun row => row.id = i)) =
      some ⟨i, obj.year, obj.summary, obj.employee_id⟩ := by
    rw [hupd]
    dsimp only
    rw [find?_map_id_pres]
    · rw [hf]
      rw [Option.map_some']
      rw [if_pos (by rw [hid, hrow2id])]
      rw [hrow2id]
    · intro row
      by_cases hc : obj.id = some row.id <;> simp [hc]
  have hcachesame : (update s r).cache = s.cache := by rw [hupd]
  have hheapsame : (update s r).heap = s.heap := by rw [hupd]
  cases hcget : dictGet s.cache i with
  | none =>
    have hF : find_by_id E (update s r) i =
        ({ update s r with
            heap := (update s r).heap ++
              [⟨some i, obj.year, obj.summary, obj.employee_id⟩],
            cache := dictInsert (update s r).cache i
              (update s r).heap.length },
          .ok (some (update s r).heap.length)) := by
      unfold find_by_id
      rw [hfindU]
      dsimp only
      rw [instance_from_db_fresh_ok E (update s r)
        ⟨i, obj.year, obj.summary, obj.employee_id⟩
        (by rw [hcachesame]; exact hcget) hy hs he]
    unfold fetchYearSummary
    rw [hF]
    dsimp only
    rw [List.getElem?_concat_length]
    rfl
  | some r0 =>
    have hr0mem := dictGet_mem s.cache i r0 hcget
    have hr0lt : r0 < s.heap.length := hcache _ hr0mem
    have hobj0 : s.heap[r0]? = some s.heap[r0] := List.getElem?_eq_getElem hr0lt
    have hF : find_by_id E (update s r) i =
        ({ update s r with heap :=
            ((update s r).heap.set r0
              ⟨(s.heap[r0]).id, obj.year, obj.summary, obj.employee_id⟩) },
          .ok (some r0)) := by
      unfold find_by_id
      rw [hfindU]
      dsimp only
      rw [instance_from_db_cached_ok E (update s r)
        ⟨i, obj.year, obj.summary, obj.employee_id⟩ r0 (s.heap[r0])
        (by rw [hcachesame]; exact hcget) (by rw [hheapsame]; exact hobj0)
        hy hs he]
    unfold fetchYearSummary
    rw [hF]
    dsimp only
    rw [hheapsame]
    have : (s.heap.set r0
        ⟨(s.heap[r0]).id, obj.year, obj.summary, obj.employee_id⟩)[r0]? =
        some ⟨(s.heap[r0]).id, obj.year, obj.summary, obj.employee_id⟩ := by
      simp [List.getElem?_set_self, hr0lt]
    rw [this]
    rfl

/-- Witness for C7: a concrete saved instance whose year and summary were
mutated to 2024 / "better"; update then re-fetch yields those values. -/
theorem update_then_find_by_id_witness :
    (State.mk [⟨some 1, .vint 2024, .vstr "better", .vint 1⟩] [(1, 0)]
        [⟨1, .vint 2023, .vstr "old", .vint 1⟩] 2).heap[(0 : Nat)]? =
      some ⟨some 1, .vint 2024, .vstr "better", .vint 1⟩ ∧
    fetchYearSummary (fun _ => true)
        (update ⟨[⟨some 1, .vint 2024, .vstr "better", .vint 1⟩], [(1, 0)],
          [⟨1, .vint 2023, .vstr "old", .vint 1⟩], 2⟩ 0) 1 =
      some (.vint 2024, .vstr "better") :=
  ⟨rfl,
   update_then_find_by_id (fun _ => true)
     ⟨[⟨some 1, .vint 2024, .vstr "better", .vint 1⟩], [(1, 0)],
       [⟨1, .vint 2023, .vstr "old", .vint 1⟩], 2⟩ 0
     ⟨some 1, .vint 2024, .vstr "better", .vint 1⟩ 1 rfl rfl rfl rfl rfl
     ⟨⟨1, .vint 2023, .vstr "old", .vint 1⟩, by simp, rfl⟩
     (by simp)⟩

/-! ## Identity stability of find_by_id -/

/-- C6: two successful `find_by_id` calls with the same id (within one
process, with no intervening operation) return the very same in-memory
instance: the same heap reference, not merely value-equal objects. -/
theorem find_by_id_identity_stable (E : PyVal → Bool) (s s1 s2 : State)
    (i : Nat) (r1 r2 : Ref)
    (h1 : find_by_id E s i = (s1, .ok (some r1)))
    (h2 : find_by_id E s1 i = (s2, .ok (some r2))) : r1 = r2 := by
  unfold find_by_id at h1 h2
  cases hf : s.rows.find? (fun row => row.id = i) with
  | none =>
    rw [hf] at h1
    simp at h1
  | some row =>
    rw [hf] at h1
    dsimp only at h1
    cases hins : instance_from_db E s row with
    | mk sA res =>
      rw [hins] at h1
      cases res with
      | error msg => simp at h1
      | ok rA =>
        simp only [Prod.mk.injEq, Except.ok.injEq, Option.some.injEq] at h1
        obtain ⟨rfl, rfl⟩ := h1
        have hfacts := instance_from_db_ok_facts E s row _ _ hins
        rw [hfacts.1, hf] at h2
        dsimp only at h2
        cases hins2 : instance_from_db E sA row with
        | mk sB res2 =>
          rw [hins2] at h2
          cases res2 with
          | error msg => simp at h2
          | ok rB =>
            simp only [Prod.mk.injEq, Except.ok.injEq, Option.some.injEq] at h2
            obtain ⟨rfl, rfl⟩ := h2
            exact (instance_from_db_cached_ref E sA row rA hfacts.2 sB rB
              hins2).symm

/-- Witness for C6: on a concrete one-row table, both lookups of id 1
succeed and the theorem yields that they return the same reference. -/
theorem find_by_id_identity_stable_witness :
    find_by_id (fun _ => true) ⟨[], [], [⟨1, .vint 2023, .vstr "ok", .vint 1⟩], 2⟩ 1 =
      (⟨[⟨some 1, .vint 2023, .vstr "ok", .vint 1⟩], [(1, 0)],
        [⟨1, .vint 2023, .vstr "ok", .vint 1⟩], 2⟩, .ok (some 0)) ∧
    find_by_id (fun _ => true)
        ⟨[⟨some 1, .vint 2023, .vstr "ok", .vint 1⟩], [(1, 0)],
          [⟨1, .vint 2023, .vstr "ok", .vint 1⟩], 2⟩ 1 =
      (⟨[⟨some 1, .vint 2023, .vstr "ok", .vint 1⟩], [(1, 0)],
        [⟨1, .vint 2023, .vstr "ok", .vint 1⟩], 2⟩, .ok (some 0)) ∧
    (0 : Ref) = 0 :=
  ⟨by rfl, by rfl,
   find_by_id_identity_stable (fun _ => true)
     ⟨[], [], [⟨1, .vint 2023, .vstr "ok", .vint 1⟩], 2⟩
     ⟨[⟨some 1, .vint 2023, .vstr "ok", .vint 1⟩], [(1, 0)],
       [⟨1, .vint 2023, .vstr "ok", .vint 1⟩], 2⟩
     ⟨[⟨some 1, .vint 2023, .vstr "ok", .vint 1⟩], [(1, 0)],
       [⟨1, .vint 2023, .vstr "ok", .vint 1⟩], 2⟩
     1 0 0 (by rfl) (by rfl)⟩

/-- Witness for C9: on a two-row table, updating and deleting the instance
for row 1 leaves row 2 untouched. -/
theorem update_delete_frame_witness :
    ((update ⟨[⟨some 1, .vint 2023, .vstr "ok", .vint 1⟩], [(1, 0)],
        [⟨1, .vint 2023, .vstr "ok", .vint 1⟩, ⟨2, .vint 2024, .vstr "b", .vint 2⟩],
        3⟩ 0).rows.filter fun row => row.id ≠ 1) =
      ([⟨1, .vint 2023, .vstr "ok", .vint 1⟩,
        ⟨2, .vint 2024, .vstr "b", .vint 2⟩] : List Row).filter
        (fun row => row.id ≠ 1) ∧
    ((delete ⟨[⟨some 1, .vint 2023, .vstr "ok", .vint 1⟩], [(1, 0)],
        [⟨1, .vint 2023, .vstr "ok", .vint 1⟩, ⟨2, .vint 2024, .vstr "b", .vint 2⟩],
        3⟩ 0).rows.filter fun row => row.id ≠ 1) =
      ([⟨1, .vint 2023, .vstr "ok", .vint 1⟩,
        ⟨2, .vint 2024, .vstr "b", .vint 2⟩] : List Row).filter
        (fun row => row.id ≠ 1) :=
  update_delete_frame _ 0 ⟨some 1, .vint 2023, .vstr "ok", .vint 1⟩ 1 rfl rfl


/-! ## The identity-cache key-agreement invariant (C8) -/

theorem mem_dictRemove_sub (c : List (Nat × Ref)) (k : Nat) :
    ∀ p ∈ dictRemove c k, p ∈ c := by
  induction c with
  | nil => simp [dictRemove]
  | cons q rest ih =>
    intro p hp
    rw [dictRemove] at hp
    by_cases hq : q.1 = k
    · rw [if_pos hq] at hp
      exact List.mem_cons_of_mem _ (ih p hp)
    · rw [if_neg hq] at hp
      rcases List.mem_cons.mp hp with rfl | hp'
      · exact List.mem_cons_self _ _
      · exact List.mem_cons_of_mem _ (ih p hp')

theorem reviewInit_ok_id (E : PyVal → Bool) (y sm e : PyVal) (id : Option Nat)
    (obj : ReviewObj) (h : reviewInit E y sm e id = .ok obj) : obj.id = id := by
  unfold reviewInit at h
  cases h1 : yearSetter y with
  | error msg => rw [h1] at h; simp at h
  | ok yv =>
    rw [h1] at h
    cases h2 : summarySetter sm with
    | error msg => rw [h2] at h; simp at h
    | ok sv =>
      rw [h2] at h
      cases h3 : employeeIdSetter E e with
      | error msg => rw [h3] at h; simp at h
      | ok ev =>
        rw [h3] at h
        simp only [Except.ok.injEq] at h
        rw [← h]

theorem inv_of_same_ids (s s' : State)
    (hheap : ∀ k : Nat,
      s'.heap[k]?.map ReviewObj.id = s.heap[k]?.map ReviewObj.id)
    (hcache : s'.cache = s.cache) (hrows : s'.rows = s.rows)
    (hnext : s'.nextRowId = s.nextRowId) (h : Inv s) : Inv s' := by
  obtain ⟨hC, hK, hR, hN⟩ := h
  refine ⟨?_, ?_, ?_, ?_⟩
  · intro p hp
    rw [hcache] at hp
    rw [hheap p.2]
    exact hC p hp
  · intro p hp
    rw [hcache] at hp
    exact hK p hp
  · intro row hrow
    rw [hrows] at hrow
    exact hR row hrow
  · rw [hnext]
    exact hN

theorem cacheOK_append (s : State) (l : List ReviewObj) (h : CacheOK s) :
    CacheOK { s with heap := s.heap ++ l } := by
  intro p hp
  have hCp := h p hp
  obtain ⟨o, ho, hoid⟩ := Option.map_eq_some'.mp hCp
  have hplt : p.2 < s.heap.length := (List.getElem?_eq_some.mp ho).1
  dsimp only
  rw [List.getElem?_append_left hplt, ho, Option.map_some', hoid]

theorem inv_update (s : State) (r : Ref) (h : Inv s) : Inv (update s r) := by
  unfold update
  cases hr : s.heap[r]? with
  | none => exact h
  | some obj =>
    obtain ⟨hC, hK, hR, hN⟩ := h
    refine ⟨hC, hK, ?_, hN⟩
    intro row hrow
    dsimp only at hrow
    rcases List.mem_map.mp hrow with ⟨row0, hrow0, rfl⟩
    have h0 := hR row0 hrow0
    by_cases hcnd : obj.id = some row0.id
    · simpa [hcnd] using h0
    · simpa [hcnd] using h0

theorem inv_save (s : State) (r : Ref) (h : Inv s) : Inv (save s r) := by
  unfold save
  cases hr : s.heap[r]? with
  | none => exact h
  | some obj =>
    dsimp only
    by_cases ht : truthyId obj.id = true
    · rw [if_pos ht]
      exact inv_update s r h
    · rw [if_neg ht]
      obtain ⟨hC, hK, hR, hN⟩ := h
      have hlt : r < s.heap.length := (List.getElem?_eq_some.mp hr).1
      refine ⟨?_, ?_, ?_, ?_⟩
      · intro p hp
        dsimp only at hp ⊢
        rcases mem_dictInsert _ _ _ p hp with rfl | hp'
        · simp [List.getElem?_set_self, hlt]
        · have hCp := hC p hp'
          by_cases hpr : p.2 = r
          · exfalso
            rw [hpr, hr] at hCp
            have hobj : obj.id = some p.1 := by simpa using hCp
            have h1 : 1 ≤ p.1 := hK p hp'
            apply ht
            have h0 : p.1 ≠ 0 := by omega
            simp [truthyId, hobj, h0]
          · rw [List.getElem?_set_ne (fun he => hpr he.symm)]
            exact hCp
      · intro p hp
        dsimp only at hp
        rcases mem_dictInsert _ _ _ p hp with rfl | hp'
        · exact hN
        · exact hK p hp'
      · intro row hrow
        dsimp only at hrow
        rcases List.mem_append.mp hrow with hrow' | hrow'
        · exact hR row hrow'
        · rcases List.mem_singleton.mp hrow' with rfl
          exact hN
      · exact Nat.le_succ_of_le hN

theorem inv_delete (s : State) (r : Ref) (h : Inv s) : Inv (delete s r) := by
  unfold delete
  cases hr : s.heap[r]? with
  | none => exact h
  | some obj =>
    dsimp only
    obtain ⟨hC, hK, hR, hN⟩ := h
    have hlt : r < s.heap.length := (List.getElem?_eq_some.mp hr).1
    cases hid : obj.id with
    | none =>
      dsimp only
      refine ⟨?_, hK, hR, hN⟩
      intro p hp
      dsimp only at hp ⊢
      have hCp := hC p hp
      by_cases hpr : p.2 = r
      · exfalso
        rw [hpr, hr] at hCp
        have hobj : obj.id = some p.1 := by simpa using hCp
        rw [hid] at hobj
        exact Option.noConfusion hobj
      · rw [List.getElem?_set_ne (fun he => hpr he.symm)]
        exact hCp
    | some i =>
      dsimp only
      have hmem : ∀ p, (p ∈ (if dictHasKey s.cache i then dictRemove s.cache i
          else s.cache)) → p ∈ s.cache ∧ p.1 ≠ i := by
        intro p hp
        by_cases hk : dictHasKey s.cache i
        · rw [if_pos hk] at hp
          exact ⟨mem_dictRemove_sub s.cache i p hp, mem_dictRemove_ne s.cache i p hp⟩
        · rw [if_neg hk] at hp
          have hk' : dictHasKey s.cache i = false := by simpa using hk
          exact ⟨hp, dictHasKey_false_not_mem s.cache i hk' p hp⟩
      refine ⟨?_, ?_, ?_, hN⟩
      · intro p hp
        dsimp only at hp ⊢
        obtain ⟨hp', hpne⟩ := hmem p hp
        have hCp := hC p hp'
        by_cases hpr : p.2 = r
        · exfalso
          rw [hpr, hr] at hCp
          have hobj : obj.id = some p.1 := by simpa using hCp
          rw [hid] at hobj
          exact hpne (by simpa using hobj.symm)
        · rw [List.getElem?_set_ne (fun he => hpr he.symm)]
          exact hCp
      · intro p hp
        dsimp only at hp
        exact hK p (hmem p hp).1
      · intro row hrow
        dsimp only at hrow
        exact hR row (List.mem_filter.mp hrow).1

theorem inv_instance_from_db (E : PyVal → Bool) (s : State) (row : Row)
    (h : Inv s) (hrowpos : 1 ≤ row.id) : Inv (instance_from_db E s row).1 := by
  unfold instance_from_db
  cases hc : dictGet s.cache row.id with
  | some r0 =>
    dsimp only
    cases hA : assignYear s r0 row.year with
    | mk sa ea =>
      have hfa := assignYear_frame s r0 row.year
      rw [hA] at hfa
      have hsa : Inv sa :=
        inv_of_same_ids s sa hfa.2.2.2.2 hfa.1 hfa.2.1 hfa.2.2.1 h
      cases ea with
      | some msg => exact hsa
      | none =>
        dsimp only
        cases hB : assignSummary sa r0 row.summary with
        | mk sb eb =>
          have hfb := assignSummary_frame sa r0 row.summary
          rw [hB] at hfb
          have hsb : Inv sb :=
            inv_of_same_ids sa sb hfb.2.2.2.2 hfb.1 hfb.2.1 hfb.2.2.1 hsa
          cases eb with
          | some msg => exact hsb
          | none =>
            dsimp only
            cases hD : assignEmployeeId E sb r0 row.employee_id with
            | mk sc ec =>
              have hfc := assignEmployeeId_frame E sb r0 row.employee_id
              rw [hD] at hfc
              have hsc : Inv sc :=
                inv_of_same_ids sb sc hfc.2.2.2.2 hfc.1 hfc.2.1 hfc.2.2.1 hsb
              cases ec with
              | some msg => exact hsc
              | none => exact hsc
  | none =>
    dsimp only
    cases hI : reviewInit E row.year row.summary row.employee_id (some row.id) with
    | error msg => exact h
    | ok obj =>
      dsimp only
      obtain ⟨hC, hK, hR, hN⟩ := h
      have hobjid : obj.id = some row.id := reviewInit_ok_id E _ _ _ _ obj hI
      refine ⟨?_, ?_, hR, hN⟩
      · intro p hp
        dsimp only at hp ⊢
        rcases mem_dictInsert _ _ _ p hp with rfl | hp'
        · dsimp only
          rw [List.getElem?_concat_length, Option.map_some', hobjid]
        · have := cacheOK_append s [obj] hC p hp'
          exact this
      · intro p hp
        dsimp only at hp
        rcases mem_dictInsert _ _ _ p hp with rfl | hp'
        · exact hrowpos
        · exact hK p hp'

theorem inv_find_by_id (E : PyVal → Bool) (s : State) (pid : Nat)
    (h : Inv s) : Inv (find_by_id E s pid).1 := by
  unfold find_by_id
  cases hf : s.rows.find? (fun row => row.id = pid) with
  | none => exact h
  | some row =>
    dsimp only
    have hmem : row ∈ s.rows := List.mem_of_find?_eq_some hf
    have hpos : 1 ≤ row.id := h.2.2.1 row hmem
    have hinv := inv_instance_from_db E s row h hpos
    cases hI : instance_from_db E s row with
    | mk s1 res =>
      rw [hI] at hinv
      cases res with
      | error msg => exact hinv
      | ok r => exact hinv

theorem inv_create (E : PyVal → Bool) (s : State) (y sm e : PyVal)
    (h : Inv s) : Inv (create E s y sm e).1 := by
  unfold create
  cases hI : reviewInit E y sm e none with
  | error msg => exact h
  | ok obj =>
    dsimp only
    apply inv_save
    obtain ⟨hC, hK, hR, hN⟩ := h
    exact ⟨cacheOK_append s [obj] hC, hK, hR, hN⟩

theorem inv_get_all_from (E : PyVal → Bool) (rows : List Row) :
    ∀ s : State, Inv s → (∀ row ∈ rows, 1 ≤ row.id) →
      Inv (get_all_from E s rows).1 := by
  induction rows with
  | nil =>
    intro s h _
    exact h
  | cons row rest ih =>
    intro s h hrows
    unfold get_all_from
    have hinv := inv_instance_from_db E s row h (hrows row (List.mem_cons_self _ _))
    cases hI : instance_from_db E s row with
    | mk s1 res =>
      rw [hI] at hinv
      cases res with
      | error msg => exact hinv
      | ok r =>
        dsimp only
        have hrest := ih s1 hinv
          (fun row2 hrow2 => hrows row2 (List.mem_cons_of_mem _ hrow2))
        cases hG : get_all_from E s1 rest with
        | mk s2 res2 =>
          rw [hG] at hrest
          cases res2 with
          | error msg => exact hrest
          | ok rs => exact hrest

theorem inv_get_all (E : PyVal → Bool) (s : State) (h : Inv s) :
    Inv (get_all E s).1 := by
  unfold get_all
  exact inv_get_all_from E s.rows s h h.2.2.1

/-- C8: identity-cache key agreement: assuming the state invariant (key
agreement together with positivity of cache keys, row ids and the fresh-id
counter, which the backend guarantees), after each of save, create, delete,
find_by_id, get_all and instance_from_db (on a table row) the invariant
still holds — in particular every identity-cache key maps to an instance
whose `id` attribute equals that key. -/
theorem cache_key_agreement_all_ops (E : PyVal → Bool) (s : State) (r : Ref)
    (pid : Nat) (row : Row) (y sm e : PyVal) (h : Inv s)
    (hrow : row ∈ s.rows) :
    (Inv (save s r) ∧ CacheOK (save s r)) ∧
    (Inv (create E s y sm e).1 ∧ CacheOK (create E s y sm e).1) ∧
    (Inv (delete s r) ∧ CacheOK (delete s r)) ∧
    (Inv (find_by_id E s pid).1 ∧ CacheOK (find_by_id E s pid).1) ∧
    (Inv (get_all E s).1 ∧ CacheOK (get_all E s).1) ∧
    (Inv (instance_from_db E s row).1 ∧
      CacheOK (instance_from_db E s row).1) := by
  have h1 := inv_save s r h
  have h2 := inv_create E s y sm e h
  have h3 := inv_delete s r h
  have h4 := inv_find_by_id E s pid h
  have h5 := inv_get_all E s h
  have h6 := inv_instance_from_db E s row h (h.2.2.1 row hrow)
  exact ⟨⟨h1, h1.1⟩, ⟨h2, h2.1⟩, ⟨h3, h3.1⟩, ⟨h4, h4.1⟩, ⟨h5, h5.1⟩,
    ⟨h6, h6.1⟩⟩

/-- Witness for C8: a concrete invariant-satisfying state (one saved
instance, cached under its row id); save preserves key agreement. -/
theorem cache_key_agreement_all_ops_witness :
    Inv ⟨[⟨some 1, .vint 2023, .vstr "ok", .vint 1⟩], [(1, 0)],
      [⟨1, .vint 2023, .vstr "ok", .vint 1⟩], 2⟩ ∧
    CacheOK (save ⟨[⟨some 1, .vint 2023, .vstr "ok", .vint 1⟩], [(1, 0)],
      [⟨1, .vint 2023, .vstr "ok", .vint 1⟩], 2⟩ 0) :=
  ⟨by constructor
      · intro p hp
        simp only [List.mem_singleton] at hp
        subst hp
        rfl
      · refine ⟨?_, ?_, ?_⟩ <;> simp [Inv]
   ,
   ((cache_key_agreement_all_ops (fun _ => true)
     ⟨[⟨some 1, .vint 2023, .vstr "ok", .vint 1⟩], [(1, 0)],
       [⟨1, .vint 2023, .vstr "ok", .vint 1⟩], 2⟩ 0 1
     ⟨1, .vint 2023, .vstr "ok", .vint 1⟩ (.vint 2023) (.vstr "ok") (.vint 1)
     (by constructor
         · intro p hp
           simp only [List.mem_singleton] at hp
           subst hp
           rfl
         · refine ⟨?_, ?_, ?_⟩ <;> simp [Inv])
     (List.mem_singleton.mpr rfl)).1).2⟩


end ReviewORM
